import Mathlib

/-!
Verification development for the sitemap crawler (src/sitemap-crawler.py).

The Python program is shallowly embedded as follows:
* Python strings are Lean `String`s; the string builtins used by the code
  (`strip`, `rstrip`, `startswith`, `split`, code-point comparison for
  `sorted`) are modelled explicitly over `String.data` so that every
  definition evaluates by kernel reduction.
* A parsed `xml.etree.ElementTree` element is an `XmlTree`: a tag (already
  namespace-expanded, exactly as ElementTree expands `ns:loc` to the
  brace-wrapped URI followed by the local name), the element text, and the
  child elements in document order.  `findall` on paths of the two shapes
  used by the code (descendant tag, and descendant tag followed by a child
  tag) and `find` (first direct child) are modelled on this tree.
* The HTTP session, `urljoin` and XML parsing are external collaborators;
  they enter as an environment (`FetchEnv`, `CrawlerCfg.urljoin`).  The
  rate-limiting `time.sleep` is recorded as a boolean effect flag of one
  fetch, and the set of URLs fetched by a crawl is returned as a log.
-/

/-- Code-point lexicographic comparison of character lists: this is exactly
how Python compares two `str` values (used by `sorted`). -/
def lexLe : List Char → List Char → Bool
  | [], _ => true
  | _ :: _, [] => false
  | a :: as, b :: bs => if a = b then lexLe as bs else decide (a < b)

/-- Python string comparison `a <= b` (code-point lexicographic). -/
def strLe (a b : String) : Bool := lexLe a.data b.data

/-- Helper for `startswith`: the first list is a leading segment of the
second. -/
def hasPref : List Char → List Char → Bool
  | [], _ => true
  | _ :: _, [] => false
  | p :: ps, c :: cs => if p = c then hasPref ps cs else false

/-- Python `s.startswith(p)`. -/
def pyStartsWith (s p : String) : Bool := hasPref p.data s.data

/-- Python `str.strip()` with no argument removes leading and trailing
whitespace. -/
def pyStrip (s : String) : String :=
  ⟨((s.data.dropWhile Char.isWhitespace).reverse.dropWhile Char.isWhitespace).reverse⟩

/-- Python `s.rstrip(c)` for a single-character argument: removes every
trailing occurrence of `c`. -/
def pyRstrip (s : String) (c : Char) : String :=
  ⟨(s.data.reverse.dropWhile (fun x => x == c)).reverse⟩

/-- Helper for `split`: accumulates the current field (reversed). -/
def splitCharAux (sep : Char) : List Char → List Char → List String
  | [], acc => [⟨acc.reverse⟩]
  | c :: cs, acc =>
    if c = sep then ⟨acc.reverse⟩ :: splitCharAux sep cs []
    else splitCharAux sep cs (c :: acc)

/-- Python `s.split(sep)` for a single-character separator; always returns a
non-empty list of fields. -/
def pySplit (s : String) (sep : Char) : List String := splitCharAux sep s.data []

/-- A parsed XML element, as produced by `xml.etree.ElementTree.fromstring`:
tag (with the namespace already expanded into the tag string, ElementTree
style), the text directly inside the element, and the child elements in
document order. -/
inductive XmlTree where
  | elem (tag : String) (text : Option String) (children : List XmlTree)

def XmlTree.tagOf : XmlTree → String
  | .elem t _ _ => t

def XmlTree.textOf : XmlTree → Option String
  | .elem _ tx _ => tx

def XmlTree.childrenOf : XmlTree → List XmlTree
  | .elem _ _ cs => cs

mutual

/-- Decidable equality of XML trees (structural recursion, so that it
evaluates by kernel reduction). -/
def XmlTree.deq : (a b : XmlTree) → Decidable (a = b)
  | .elem t1 x1 c1, .elem t2 x2 c2 =>
    match decEq t1 t2 with
    | isFalse h => isFalse (fun he => by injection he; exact h (by assumption))
    | isTrue h1 =>
      match decEq x1 x2 with
      | isFalse h => isFalse (fun he => by injection he; exact h (by assumption))
      | isTrue h2 =>
        match XmlTree.deqList c1 c2 with
        | isFalse h => isFalse (fun he => by injection he; exact h (by assumption))
        | isTrue h3 => isTrue (by rw [h1, h2, h3])

def XmlTree.deqList : (a b : List XmlTree) → Decidable (a = b)
  | [], [] => isTrue rfl
  | [], _ :: _ => isFalse (fun he => by injection he)
  | _ :: _, [] => isFalse (fun he => by injection he)
  | a :: as, b :: bs =>
    match XmlTree.deq a b with
    | isFalse h => isFalse (fun he => by injection he; exact h (by assumption))
    | isTrue h1 =>
      match XmlTree.deqList as bs with
      | isFalse h => isFalse (fun he => by injection he; exact h (by assumption))
      | isTrue h2 => isTrue (by rw [h1, h2])

end

instance : DecidableEq XmlTree := XmlTree.deq

mutual

/-- All descendant elements of an element, in document order (the root
itself is not included), exactly the elements traversed by an ElementTree
path starting with the descendant axis. -/
def descendants : XmlTree → List XmlTree
  | .elem _ _ cs => descList cs

def descList : List XmlTree → List XmlTree
  | [] => []
  | c :: r => c :: (descendants c ++ descList r)

end

/-- ElementTree `root.findall` for a path selecting every descendant with
the given (expanded) tag, in document order. -/
def findallDesc (t : String) (root : XmlTree) : List XmlTree :=
  (descendants root).filter (fun e => e.tagOf == t)

/-- The direct children of an element carrying the given tag, in order. -/
def childrenWithTag (t : String) (e : XmlTree) : List XmlTree :=
  e.childrenOf.filter (fun c => c.tagOf == t)

/-- ElementTree `root.findall` for a path selecting, below every descendant
with tag `t1`, its children with tag `t2` (document order). -/
def findallPath (t1 t2 : String) (root : XmlTree) : List XmlTree :=
  (findallDesc t1 root).flatMap (childrenWithTag t2)

/-- ElementTree `e.find` for a plain tag: the first direct child with that
tag, if any. -/
def findChild (e : XmlTree) (t : String) : Option XmlTree :=
  e.childrenOf.find? (fun c => c.tagOf == t)

/-- ElementTree expansion of a tag qualified by the sitemap namespace of
`SITEMAP_NS` in the source: the URI wrapped in braces, then the local tag. -/
def nsTag (s : String) : String :=
  "\x7bhttp://www.sitemaps.org/schemas/sitemap/0.9\x7d" ++ s

/-- One extracted URL row, as built by `_extract_url_data` (the dict with
keys url, last_modified, source_sitemap). -/
structure URLRecord where
  url : String
  last_modified : String
  source_sitemap : String
deriving DecidableEq, Repr

/-- Source `_extract_text`: the stripped element text when the element is
present and its text is neither missing nor empty, otherwise the empty
string. -/
def extractText : Option XmlTree → String
  | none => ""
  | some e =>
    match e.textOf with
    | none => ""
    | some s => if s = "" then "" else pyStrip s

/-- The elements matched by one of the two queries tried by
`_extract_sitemap_urls`: the namespaced descendant path when the flag is
true, the bare one otherwise. -/
def sitemapLocElems : Bool → XmlTree → List XmlTree
  | true, root => findallPath (nsTag "sitemap") (nsTag "loc") root
  | false, root => findallPath "sitemap" "loc" root

/-- Source `_extract_sitemap_urls`: extend an (initially empty) url list
with the texts of the namespaced matches; if that left the list non-empty,
stop, otherwise extend with the texts of the bare matches; finally keep the
non-empty strings. -/
def extractSitemapUrls (root : XmlTree) : List String :=
  let firstTry := (sitemapLocElems true root).map (fun e => extractText (some e))
  let urls :=
    if firstTry.isEmpty then
      (sitemapLocElems false root).map (fun e => extractText (some e))
    else firstTry
  urls.filter (fun u => !(u == ""))

/-- The body of the per-element loop of `_extract_url_data`: read the loc
child under the given tag (skip the element when the extracted text is
empty), the optional lastmod child, and tag the row with the source
label. -/
def recordOfTags (locT lmT : String) (source : String) (urlElem : XmlTree) : Option URLRecord :=
  let loc := extractText (findChild urlElem locT)
  if loc == "" then none
  else
    some { url := loc,
           last_modified := extractText (findChild urlElem lmT),
           source_sitemap := source }

/-- The loop body with the tags of the namespaced attempt (flag true) or of
the bare attempt (flag false). -/
def recordOf : Bool → String → XmlTree → Option URLRecord
  | true => recordOfTags (nsTag "loc") (nsTag "lastmod")
  | false => recordOfTags "loc" "lastmod"

/-- One pass of `_extract_url_data`: all rows produced from the url
elements matched by the namespaced (or bare) descendant query. -/
def urlPass : Bool → XmlTree → String → List URLRecord
  | true, root, source => (findallDesc (nsTag "url") root).filterMap (recordOf true source)
  | false, root, source => (findallDesc "url" root).filterMap (recordOf false source)

/-- Source `_extract_url_data`: run the namespaced pass; if it produced any
row, stop, otherwise run the bare pass. -/
def extractUrlData (root : XmlTree) (source : String) : List URLRecord :=
  let firstTry := urlPass true root source
  if firstTry.isEmpty then urlPass false root source else firstTry

/-- An HTTP response as seen by the code: status code and body. -/
structure HttpResponse where
  status : Nat
  content : String
deriving DecidableEq

/-- The external collaborators of `_fetch_xml`: the HTTP session get
(returning `none` when `requests` raises a `RequestException`, which covers
connection errors and the 30s timeout) and the ElementTree XML parse
(returning `none` on `ParseError`). -/
structure FetchEnv where
  httpGet : String → Option HttpResponse
  parseXml : String → Option XmlTree

/-- Result of one `_fetch_xml` call: the parsed document (or `none` on any
failure) together with whether the rate-limiting `time.sleep(self.delay)`
was executed in that call. -/
structure FetchResult where
  doc : Option XmlTree
  slept : Bool
deriving DecidableEq

/-- Statuses for which `response.raise_for_status()` raises (client and
server HTTP errors). -/
def httpErrorStatus (s : Nat) : Bool := decide (400 ≤ s) && decide (s < 600)

/-- Source `_fetch_xml`: GET the URL; a request exception (including the
timeout) or an error status aborts the call before the sleep; otherwise the
call sleeps and then parses the body, a parse failure returning no
document. -/
def fetchXml (env : FetchEnv) (url : String) : FetchResult :=
  match env.httpGet url with
  | none => { doc := none, slept := false }
  | some resp =>
    if httpErrorStatus resp.status then { doc := none, slept := false }
    else { doc := env.parseXml resp.content, slept := true }

/-- Crawler configuration: the stored `self.base_url` and the external
`urllib.parse.urljoin`. -/
structure CrawlerCfg where
  base_url : String
  urljoin : String → String → String

/-- Source `__init__`: the base url is stored with trailing slashes
removed. -/
def initCrawler (rawBase : String) (uj : String → String → String) : CrawlerCfg :=
  { base_url := pyRstrip rawBase '/', urljoin := uj }

/-- Source `_make_absolute_url`: a url is kept as is when it starts with
the literal "http", otherwise it is joined onto the base url. -/
def makeAbsoluteUrl (cfg : CrawlerCfg) (url : String) : String :=
  if pyStartsWith url "http" then url else cfg.urljoin cfg.base_url url

/-- Source expression `abs_url.split('/')[-1]`: the final path segment of
the absolutized child sitemap URL. -/
def sourceNameOf (absUrl : String) : String := (pySplit absUrl '/').getLastD ""

/-- One iteration of the child-sitemap loop of `crawl_sitemap_index`:
absolutize the child URL, fetch it, and on success extract its rows using
the final path segment as the source label; a failed fetch contributes no
rows.  The second component is the fetch log of the iteration. -/
def childFetch (cfg : CrawlerCfg) (env : FetchEnv) (sitemapUrl : String) :
    List URLRecord × List String :=
  let absUrl := makeAbsoluteUrl cfg sitemapUrl
  match (fetchXml env absUrl).doc with
  | none => ([], [absUrl])
  | some sroot => (extractUrlData sroot (sourceNameOf absUrl), [absUrl])

/-- Source `crawl_sitemap_index`: absolutize and fetch the index URL
(returning no rows when that fails); extract the child sitemap URLs; when
there are none, treat the document as a flat sitemap labelled
"sitemap_index.xml"; otherwise process every child and concatenate.  The
second component is the list of URLs passed to `_fetch_xml`, in order. -/
def crawlSitemapIndex (cfg : CrawlerCfg) (env : FetchEnv) (sitemapIndexUrl : String) :
    List URLRecord × List String :=
  let indexUrl := makeAbsoluteUrl cfg sitemapIndexUrl
  match (fetchXml env indexUrl).doc with
  | none => ([], [indexUrl])
  | some root =>
    let sitemapUrls := extractSitemapUrls root
    if sitemapUrls.isEmpty then
      (extractUrlData root "sitemap_index.xml", [indexUrl])
    else
      let results := sitemapUrls.map (childFetch cfg env)
      ((results.map Prod.fst).flatten, indexUrl :: (results.map Prod.snd).flatten)

/-- The sort key relation of `save_to_csv`: Python `sorted` with key
`x['url']` compares records by code-point order on the url field. -/
def urlLe (a b : URLRecord) : Prop := strLe a.url b.url = true

instance : DecidableRel urlLe :=
  fun a b => inferInstanceAs (Decidable (strLe a.url b.url = true))

/-- The CSV header row written by `save_to_csv`. -/
def csvHeader : List String := ["url", "last_modified", "source_sitemap"]

/-- The CSV row written for one record. -/
def rowOf (r : URLRecord) : List String := [r.url, r.last_modified, r.source_sitemap]

/-- Source `save_to_csv`, modelled as the rows it writes: nothing is
written when there are no records; otherwise the header followed by one row
per record, the records first sorted by url (Python `sorted` is a stable
ascending sort, rendered here by the stable `insertionSort`). -/
def saveToCsv (url_data : List URLRecord) : Option (List (List String)) :=
  if url_data.isEmpty then none
  else some (csvHeader :: (List.insertionSort urlLe url_data).map rowOf)

mutual

/-- Adds the sitemap namespace expansion to every tag of a document: the
tree a document parses to when it carries the standard `xmlns` declaration,
compared with the tree of the same document without it. -/
def nsify : XmlTree → XmlTree
  | .elem t tx cs => .elem (nsTag t) tx (nsifyList cs)

def nsifyList : List XmlTree → List XmlTree
  | [] => []
  | c :: r => nsify c :: nsifyList r

end

/-- A tag not produced by namespace expansion (it does not start with an
opening brace).  Every tag of a document parsed without an `xmlns`
declaration is of this shape. -/
def bareTag (t : String) : Bool :=
  match t.data with
  | [] => true
  | c :: _ => !(c == '\x7b')

/-- A document parsed from XML without the sitemap namespace declaration:
every tag in it is bare. -/
def bareDoc (d : XmlTree) : Bool :=
  (d.tagOf :: (descendants d).map XmlTree.tagOf).all bareTag

/-- Serialized-level url entries of a document: descendants rendered as a
url element, with or without the namespace. -/
def urlEntries (d : XmlTree) : List XmlTree :=
  (descendants d).filter (fun e => e.tagOf == "url" || e.tagOf == nsTag "url")

/-- Serialized-level test that a url entry has a loc child whose text is
non-empty after trimming (the first loc child, as `find` reads it). -/
def goodUrlEntry (e : XmlTree) : Bool :=
  match e.childrenOf.find? (fun c => c.tagOf == "loc" || c.tagOf == nsTag "loc") with
  | none => false
  | some l => !(extractText (some l) == "")

/-- A sitemap entry of an index document, holding one loc text. -/
def smEntry (l : String) : XmlTree := .elem "sitemap" none [.elem "loc" (some l) []]

/-- A loc element holding the given text. -/
def locEntry (l : String) : XmlTree := .elem "loc" (some l) []

/-- An index document with one sitemap entry per given loc text (the
well-formed sitemap-index shape, without the namespace declaration). -/
def mkIndexDoc (locs : List String) : XmlTree :=
  .elem "sitemapindex" none (locs.map smEntry)

/-- Crawler configuration with an empty base url; `urljoin` of the empty
base is the identity on the second argument. -/
def cfgId : CrawlerCfg := { base_url := "", urljoin := fun _ u => u }

/-- Environment in which every HTTP request fails with a request
exception. -/
def envDown : FetchEnv := { httpGet := fun _ => none, parseXml := fun _ => none }

/-- Environment that serves, for every URL, a flat sitemap whose single url
entry carries a relative loc. -/
def envRelC1 : FetchEnv :=
  { httpGet := fun _ => some { status := 200, content := "flat" },
    parseXml := fun _ =>
      some (.elem "urlset" none [.elem "url" none [.elem "loc" (some "page1.html") []]]) }

/-- A flat sitemap without the namespace declaration: one url entry with a
loc and a lastmod. -/
def docC4 : XmlTree :=
  .elem "urlset" none
    [.elem "url" none
      [.elem "loc" (some "https://a.com/1") [], .elem "lastmod" (some "2024-01-01") []]]

/-- A sitemap index carrying the namespace declaration on every element. -/
def nsIndexDocC5 : XmlTree :=
  .elem (nsTag "sitemapindex") none
    [.elem (nsTag "sitemap") none [.elem (nsTag "loc") (some "https://e.com/s1.xml") []]]

/-- A flat sitemap carrying the namespace declaration on every element. -/
def nsFlatDocC5 : XmlTree :=
  nsify (.elem "urlset" none [.elem "url" none [.elem "loc" (some "https://a.com/1") []]])

/-- A flat sitemap without the namespace declaration. -/
def bareFlatDocC5 : XmlTree :=
  .elem "urlset" none [.elem "url" none [.elem "loc" (some "https://a.com/1") []]]

/-- An index document whose namespaced sitemap entry has whitespace-only
loc text while a bare sitemap entry carries a real URL. -/
def mixedIndexDocC10 : XmlTree :=
  .elem "sitemapindex" none
    [.elem (nsTag "sitemap") none [.elem (nsTag "loc") (some "   ") []],
     .elem "sitemap" none [.elem "loc" (some "https://e.com/s1.xml") []]]

/-- A flat sitemap whose namespaced url entry has whitespace-only loc text
while a bare url entry carries a real URL. -/
def nsEmptyFlatDocC10 : XmlTree :=
  .elem "urlset" none
    [.elem (nsTag "url") none [.elem (nsTag "loc") (some " ") []],
     .elem "url" none [.elem "loc" (some "https://b.com/2") []]]

/-- A flat sitemap mixing the two namespace conventions: a namespaced url
entry and a bare url entry, each with a non-empty loc. -/
def mixedDocC3 : XmlTree :=
  .elem "urlset" none
    [.elem (nsTag "url") none [.elem (nsTag "loc") (some "https://a.com/1") []],
     .elem "url" none [.elem "loc" (some "https://b.com/2") []]]

/-- A bare flat sitemap with one entry lacking loc, one with whitespace-only
loc text, and one good entry. -/
def docC3 : XmlTree :=
  .elem "urlset" none
    [.elem "url" none [],
     .elem "url" none [.elem "loc" (some "   ") []],
     .elem "url" none [.elem "loc" (some "https://a.com/1") []]]

/-- Environment serving an index with one child sitemap, the child holding
one url entry. -/
def envIdxC8 : FetchEnv :=
  { httpGet := fun u =>
      if u = "http://e.com/sitemap_index.xml" then some { status := 200, content := "idx" }
      else if u = "https://e.com/s1.xml" then some { status := 200, content := "s1" }
      else none,
    parseXml := fun c =>
      if c = "idx" then some (mkIndexDoc ["https://e.com/s1.xml"])
      else if c = "s1" then
        some (.elem "urlset" none
          [.elem "url" none
            [.elem "loc" (some "https://e.com/a") [],
             .elem "lastmod" (some "2024-01-01") []]])
      else none }

/-- Environment serving an index with two child sitemaps of which the
second fails to fetch. -/
def envIdxC9 : FetchEnv :=
  { httpGet := fun u =>
      if u = "http://e.com/sitemap_index.xml" then some { status := 200, content := "idx" }
      else if u = "https://e.com/s1.xml" then some { status := 200, content := "s1" }
      else none,
    parseXml := fun c =>
      if c = "idx" then some (mkIndexDoc ["https://e.com/s1.xml", "https://e.com/s2.xml"])
      else if c = "s1" then
        some (.elem "urlset" none
          [.elem "url" none
            [.elem "loc" (some "https://e.com/a") [],
             .elem "lastmod" (some "2024-01-01") []]])
      else none }

/-- A record whose url sorts second. -/
def recB : URLRecord :=
  { url := "https://b.com/x", last_modified := "2024-01-02", source_sitemap := "s1.xml" }

/-- A record whose url sorts first. -/
def recA : URLRecord :=
  { url := "https://a.com/y", last_modified := "2024-01-01", source_sitemap := "s2.xml" }

theorem nsTag_data (s : String) :
    (nsTag s).data =
      '\x7b' :: ("http://www.sitemaps.org/schemas/sitemap/0.9\x7d".data ++ s.data) := by
  rw [nsTag, String.data_append]
  rfl

theorem nsTag_inj {a b : String} (h : nsTag a = nsTag b) : a = b := by
  have hd := congrArg String.data h
  rw [nsTag_data, nsTag_data] at hd
  simp only [List.cons.injEq, true_and] at hd
  exact String.ext (List.append_cancel_left hd)

theorem bareTag_nsTag_false (s : String) : bareTag (nsTag s) = false := by
  simp [bareTag, nsTag_data]

theorem nsTag_ne_of_bareTag {s t : String} (h : bareTag t = true) : nsTag s ≠ t := by
  intro he
  rw [← he, bareTag_nsTag_false] at h
  exact Bool.false_ne_true h

theorem nsTag_beq (a b : String) : (nsTag a == nsTag b) = (a == b) := by
  by_cases h : a = b
  · simp [h]
  · have h1 : (a == b) = false := beq_eq_false_iff_ne.mpr h
    have h2 : (nsTag a == nsTag b) = false :=
      beq_eq_false_iff_ne.mpr (fun he => h (nsTag_inj he))
    rw [h1, h2]

theorem tagOf_nsify (e : XmlTree) : (nsify e).tagOf = nsTag e.tagOf := by
  cases e
  rfl

theorem textOf_nsify (e : XmlTree) : (nsify e).textOf = e.textOf := by
  cases e
  rfl

theorem childrenOf_nsify (e : XmlTree) : (nsify e).childrenOf = nsifyList e.childrenOf := by
  cases e
  rfl

theorem nsifyList_eq_map : ∀ l : List XmlTree, nsifyList l = l.map nsify
  | [] => rfl
  | c :: r => by rw [nsifyList, List.map_cons, nsifyList_eq_map r]

mutual

theorem descendants_nsify (t : XmlTree) :
    descendants (nsify t) = (descendants t).map nsify := by
  cases t with
  | elem tg tx cs => simpa [nsify, descendants] using descList_nsify cs

theorem descList_nsify (l : List XmlTree) :
    descList (nsifyList l) = (descList l).map nsify := by
  cases l with
  | nil => rfl
  | cons c r => simp [nsifyList, descList, descendants_nsify c, descList_nsify r]

end

theorem bareDoc_desc {d : XmlTree} (hd : bareDoc d = true) :
    ∀ e ∈ descendants d, bareTag e.tagOf = true := by
  intro e he
  have h := (List.all_eq_true.mp hd)
  exact h e.tagOf (List.mem_cons_of_mem _ (List.mem_map_of_mem _ he))

theorem findallDesc_nsify (t : String) (d : XmlTree) :
    findallDesc (nsTag t) (nsify d) = (findallDesc t d).map nsify := by
  rw [findallDesc, findallDesc, descendants_nsify, List.filter_map]
  congr 1
  apply List.filter_congr
  intro e _
  simp only [Function.comp_apply, tagOf_nsify, nsTag_beq]

theorem findallDesc_bare_nsify {t : String} (ht : bareTag t = true) (d : XmlTree) :
    findallDesc t (nsify d) = [] := by
  rw [findallDesc, descendants_nsify, List.filter_map]
  have h : ∀ e ∈ descendants d, ¬(((fun e => e.tagOf == t) ∘ nsify) e = true) := by
    intro e _
    simp only [Function.comp_apply, tagOf_nsify, beq_iff_eq]
    exact nsTag_ne_of_bareTag ht
  rw [List.filter_eq_nil_iff.mpr h, List.map_nil]

theorem findallDesc_nsTag_of_bareDoc {d : XmlTree} (hd : bareDoc d = true) (t : String) :
    findallDesc (nsTag t) d = [] := by
  rw [findallDesc]
  apply List.filter_eq_nil_iff.mpr
  intro e he
  simp only [beq_iff_eq]
  intro hteq
  have hb := bareDoc_desc hd e he
  rw [hteq, bareTag_nsTag_false] at hb
  exact Bool.false_ne_true hb

theorem childrenWithTag_nsify (t : String) (e : XmlTree) :
    childrenWithTag (nsTag t) (nsify e) = (childrenWithTag t e).map nsify := by
  rw [childrenWithTag, childrenWithTag, childrenOf_nsify, nsifyList_eq_map, List.filter_map]
  congr 1
  apply List.filter_congr
  intro c _
  simp only [Function.comp_apply, tagOf_nsify, nsTag_beq]

theorem findChild_nsify (e : XmlTree) (t : String) :
    findChild (nsify e) (nsTag t) = Option.map nsify (findChild e t) := by
  rw [findChild, findChild, childrenOf_nsify, nsifyList_eq_map, List.find?_map]
  have h : ((fun c => c.tagOf == nsTag t) ∘ nsify) = fun c => c.tagOf == t := by
    funext c
    simp only [Function.comp_apply, tagOf_nsify, nsTag_beq]
  rw [h]

theorem extractText_nsify (o : Option XmlTree) :
    extractText (Option.map nsify o) = extractText o := by
  cases o with
  | none => rfl
  | some e => cases e; rfl

theorem recordOf_nsify (s : String) (e : XmlTree) :
    recordOf true s (nsify e) = recordOf false s e := by
  simp only [recordOf, recordOfTags, findChild_nsify, extractText_nsify]

theorem urlPass_true_nsify (d : XmlTree) (s : String) :
    urlPass true (nsify d) s = urlPass false d s := by
  simp only [urlPass]
  rw [findallDesc_nsify, List.filterMap_map]
  have h : (recordOf true s ∘ nsify) = recordOf false s := by
    funext e
    simp only [Function.comp_apply]
    exact recordOf_nsify s e
  rw [h]

theorem urlPass_false_nsify (d : XmlTree) (s : String) :
    urlPass false (nsify d) s = [] := by
  simp only [urlPass]
  rw [findallDesc_bare_nsify (by decide) d]
  rfl

theorem urlPass_true_of_bareDoc {d : XmlTree} (hd : bareDoc d = true) (s : String) :
    urlPass true d s = [] := by
  simp only [urlPass]
  rw [findallDesc_nsTag_of_bareDoc hd]
  rfl

theorem sitemapLocElems_true_nsify (d : XmlTree) :
    sitemapLocElems true (nsify d) = (sitemapLocElems false d).map nsify := by
  simp only [sitemapLocElems, findallPath]
  rw [findallDesc_nsify, List.flatMap_map]
  have h : (fun e => childrenWithTag (nsTag "loc") (nsify e)) =
      fun e => (childrenWithTag "loc" e).map nsify := by
    funext e
    exact childrenWithTag_nsify "loc" e
  rw [h, ← List.map_flatMap]

theorem sitemapLocElems_false_nsify (d : XmlTree) :
    sitemapLocElems false (nsify d) = [] := by
  simp only [sitemapLocElems, findallPath]
  rw [findallDesc_bare_nsify (by decide) d]
  rfl

theorem sitemapLocElems_true_of_bareDoc {d : XmlTree} (hd : bareDoc d = true) :
    sitemapLocElems true d = [] := by
  simp only [sitemapLocElems, findallPath]
  rw [findallDesc_nsTag_of_bareDoc hd]
  rfl

theorem recordOfTags_eq_some {locT lmT s : String} {e : XmlTree} {r : URLRecord}
    (h : recordOfTags locT lmT s e = some r) : r.url ≠ "" ∧ r.source_sitemap = s := by
  simp only [recordOfTags] at h
  split at h
  · exact absurd h (by simp)
  · next hne =>
    obtain rfl := Option.some.inj h
    refine ⟨?_, rfl⟩
    simpa using hne

theorem recordOf_eq_some {useNs : Bool} {s : String} {e : XmlTree} {r : URLRecord}
    (h : recordOf useNs s e = some r) : r.url ≠ "" ∧ r.source_sitemap = s := by
  cases useNs
  · exact recordOfTags_eq_some h
  · exact recordOfTags_eq_some h

theorem mem_urlPass {useNs : Bool} {root : XmlTree} {s : String} {r : URLRecord}
    (h : r ∈ urlPass useNs root s) : r.url ≠ "" ∧ r.source_sitemap = s := by
  cases useNs
  · obtain ⟨e, _, he⟩ := List.mem_filterMap.mp h
    exact recordOf_eq_some he
  · obtain ⟨e, _, he⟩ := List.mem_filterMap.mp h
    exact recordOf_eq_some he

theorem mem_extractUrlData {root : XmlTree} {s : String} {r : URLRecord}
    (h : r ∈ extractUrlData root s) : r.url ≠ "" ∧ r.source_sitemap = s := by
  simp only [extractUrlData] at h
  split at h
  · exact mem_urlPass h
  · exact mem_urlPass h

theorem lexLe_total : ∀ x y : List Char, lexLe x y = true ∨ lexLe y x = true
  | [], _ => Or.inl rfl
  | _ :: _, [] => Or.inr rfl
  | a :: as, b :: bs => by
    by_cases hab : a = b
    · subst hab
      rcases lexLe_total as bs with h | h
      · exact Or.inl (by simp [lexLe, h])
      · exact Or.inr (by simp [lexLe, h])
    · rcases lt_or_gt_of_ne hab with h | h
      · exact Or.inl (by simp [lexLe, hab, h])
      · exact Or.inr (by simp [lexLe, Ne.symm hab, h])

theorem lexLe_trans :
    ∀ x y z : List Char, lexLe x y = true → lexLe y z = true → lexLe x z = true
  | [], _, _, _, _ => rfl
  | _ :: _, [], _, h1, _ => by simp [lexLe] at h1
  | _ :: _, _ :: _, [], _, h2 => by simp [lexLe] at h2
  | a :: as, b :: bs, c :: cs, h1, h2 => by
    by_cases hab : a = b <;> by_cases hbc : b = c
    · subst hab
      subst hbc
      simp only [lexLe, if_pos rfl] at h1 h2 ⊢
      exact lexLe_trans as bs cs h1 h2
    · subst hab
      simp only [lexLe, if_neg hbc] at h2
      simp [lexLe, hbc, h2]
    · subst hbc
      simp only [lexLe, if_neg hab] at h1
      simp [lexLe, hab, h1]
    · simp only [lexLe, if_neg hab, decide_eq_true_eq] at h1
      simp only [lexLe, if_neg hbc, decide_eq_true_eq] at h2
      have hac : a < c := lt_trans h1 h2
      simp [lexLe, ne_of_lt hac, hac]

theorem urlLe_trans : ∀ a b c : URLRecord, urlLe a b → urlLe b c → urlLe a c :=
  fun _ _ _ h1 h2 => lexLe_trans _ _ _ h1 h2

theorem urlLe_total : ∀ a b : URLRecord, urlLe a b ∨ urlLe b a :=
  fun _ _ => lexLe_total _ _

theorem childFetch_snd (cfg : CrawlerCfg) (env : FetchEnv) (su : String) :
    (childFetch cfg env su).2 = [makeAbsoluteUrl cfg su] := by
  simp only [childFetch]
  cases h : (fetchXml env (makeAbsoluteUrl cfg su)).doc <;> rfl

theorem childFetch_fst_of_failure {cfg : CrawlerCfg} {env : FetchEnv} {su : String}
    (h : (fetchXml env (makeAbsoluteUrl cfg su)).doc = none) :
    (childFetch cfg env su).1 = [] := by
  simp only [childFetch]
  rw [h]

theorem mem_childFetch {cfg : CrawlerCfg} {env : FetchEnv} {su : String} {r : URLRecord}
    (h : r ∈ (childFetch cfg env su).1) :
    r.url ≠ "" ∧ r.source_sitemap = sourceNameOf (makeAbsoluteUrl cfg su) := by
  simp only [childFetch] at h
  cases hcd : (fetchXml env (makeAbsoluteUrl cfg su)).doc with
  | none => rw [hcd] at h; simp at h
  | some sroot => rw [hcd] at h; exact mem_extractUrlData h

theorem mem_crawl {cfg : CrawlerCfg} {env : FetchEnv} {url : String} {r : URLRecord}
    (h : r ∈ (crawlSitemapIndex cfg env url).1) :
    ∃ root, (fetchXml env (makeAbsoluteUrl cfg url)).doc = some root ∧
      ((extractSitemapUrls root = [] ∧ r ∈ extractUrlData root "sitemap_index.xml") ∨
       (∃ su ∈ extractSitemapUrls root, r ∈ (childFetch cfg env su).1)) := by
  simp only [crawlSitemapIndex] at h
  cases hdoc : (fetchXml env (makeAbsoluteUrl cfg url)).doc with
  | none => rw [hdoc] at h; simp at h
  | some root =>
    rw [hdoc] at h
    dsimp only at h
    refine ⟨root, rfl, ?_⟩
    by_cases hE : (extractSitemapUrls root).isEmpty = true
    · rw [if_pos hE] at h
      exact Or.inl ⟨List.isEmpty_iff.mp hE, h⟩
    · rw [if_neg hE] at h
      right
      obtain ⟨l, hl, hrl⟩ := List.mem_flatten.mp h
      obtain ⟨p, hp, rfl⟩ := List.mem_map.mp hl
      obtain ⟨su, hsu, rfl⟩ := List.mem_map.mp hp
      exact ⟨su, hsu, hrl⟩

theorem descList_smEntries : ∀ locs : List String,
    descList (locs.map smEntry) = locs.flatMap (fun l => [smEntry l, locEntry l])
  | [] => rfl
  | l :: r => by
    simp [descList, descendants, smEntry, locEntry, descList_smEntries r]

theorem bareDoc_mkIndexDoc (locs : List String) : bareDoc (mkIndexDoc locs) = true := by
  apply List.all_eq_true.mpr
  intro t ht
  rcases List.mem_cons.mp ht with h | h
  · rw [h]; rfl
  · obtain ⟨e, he, rfl⟩ := List.mem_map.mp h
    rw [show descendants (mkIndexDoc locs) = descList (locs.map smEntry) from rfl,
      descList_smEntries] at he
    obtain ⟨l, _, hel⟩ := List.mem_flatMap.mp he
    rcases List.mem_cons.mp hel with h2 | h2
    · rw [h2]; rfl
    · rw [List.mem_singleton.mp h2]; rfl

theorem findallDesc_sitemap_mkIndexDoc (locs : List String) :
    findallDesc "sitemap" (mkIndexDoc locs) = locs.map smEntry := by
  rw [findallDesc,
    show descendants (mkIndexDoc locs) = descList (locs.map smEntry) from rfl,
    descList_smEntries]
  induction locs with
  | nil => rfl
  | cons l r ih =>
    simp [List.flatMap_cons, List.filter_append, List.filter_cons, smEntry, locEntry,
      XmlTree.tagOf] at ih ⊢
    exact ih

theorem sitemapLocElems_false_mkIndexDoc (locs : List String) :
    sitemapLocElems false (mkIndexDoc locs) = locs.map locEntry := by
  simp only [sitemapLocElems, findallPath]
  rw [findallDesc_sitemap_mkIndexDoc]
  induction locs with
  | nil => rfl
  | cons l r ih =>
    simp [List.flatMap_cons, childrenWithTag, smEntry, locEntry, XmlTree.tagOf,
      XmlTree.childrenOf, List.filter_cons] at ih ⊢
    exact ih

theorem extractSitemapUrls_mkIndexDoc (locs : List String)
    (hlocs : ∀ l ∈ locs, pyStrip l ≠ "") :
    extractSitemapUrls (mkIndexDoc locs) = locs.map pyStrip := by
  simp only [extractSitemapUrls]
  rw [sitemapLocElems_true_of_bareDoc (bareDoc_mkIndexDoc locs),
    sitemapLocElems_false_mkIndexDoc]
  simp only [List.map_nil, List.isEmpty_nil, if_true, List.map_map]
  have hmap : ∀ l ∈ locs, ((fun e => extractText (some e)) ∘ locEntry) l = pyStrip l := by
    intro l hl
    have hne : l ≠ "" := by
      intro h
      exact hlocs l hl (by rw [h]; rfl)
    simp [extractText, locEntry, XmlTree.textOf, hne]
  rw [List.map_congr_left hmap]
  apply List.filter_eq_self.mpr
  intro u hu
  obtain ⟨l, hl, rfl⟩ := List.mem_map.mp hu
  simpa using hlocs l hl

theorem flatten_singleton_map (f : String → String) :
    ∀ l : List String, (l.map (fun su => [f su])).flatten = l.map f
  | [] => rfl
  | a :: r => by simp [flatten_singleton_map f r]

/-- Claim C1 counterexample: the pipeline run on a flat sitemap whose loc
text is the relative reference "page1.html" emits a record whose url is
that relative string: it starts with neither "http" (the code's own test
for an absolute URL) nor any scheme at all (it contains no colon), so an
emitted url need not be absolute. -/
theorem c1_absolute_counterexample :
    (crawlSitemapIndex cfgId envRelC1 "http://e.com/sitemap_index.xml").1 =
      [{ url := "page1.html", last_modified := "", source_sitemap := "sitemap_index.xml" }] ∧
    pyStartsWith "page1.html" "http" = false ∧
    ':' ∉ "page1.html".data := by decide

/-- Claim C1 (amended): every URLRecord emitted by the extraction pipeline
(child sitemap or flat index sitemap) has a non-empty url field; the url is
the trimmed loc text verbatim and need not be absolute. -/
theorem c1_url_nonempty (cfg : CrawlerCfg) (env : FetchEnv) (url : String) :
    ∀ r ∈ (crawlSitemapIndex cfg env url).1, r.url ≠ "" := by
  intro r hr
  obtain ⟨root, _, h⟩ := mem_crawl hr
  rcases h with ⟨_, hmem⟩ | ⟨su, _, hmem⟩
  · exact (mem_extractUrlData hmem).1
  · exact (mem_childFetch hmem).1

/-- Claim C1 witness: the record emitted for the relative loc is in the
pipeline's output and its url is non-empty. -/
theorem c1_url_nonempty_witness :
    ({ url := "page1.html", last_modified := "", source_sitemap := "sitemap_index.xml" } :
        URLRecord) ∈
      (crawlSitemapIndex cfgId envRelC1 "http://e.com/sitemap_index.xml").1 ∧
    ({ url := "page1.html", last_modified := "", source_sitemap := "sitemap_index.xml" } :
        URLRecord).url ≠ "" :=
  ⟨by decide,
   c1_url_nonempty cfgId envRelC1 "http://e.com/sitemap_index.xml" _ (by decide)⟩

/-- Claim C2 counterexample: a fetch whose HTTP request fails (request
exception: network error or timeout) returns no document and does not
execute the rate-limiting sleep, so the sleep is not unconditional. -/
theorem c2_sleep_counterexample :
    fetchXml envDown "https://example.com/sitemap_index.xml" =
      { doc := none, slept := false } := by
  rfl

/-- Claim C2 (amended): in a `_fetch_xml` call the rate-limiting sleep of
the configured delay executes exactly when the HTTP request returns a
response with a non-error status — in particular it does execute when the
subsequent XML parse fails, but it does not execute when the request itself
raises (network error, timeout) or the status is an HTTP error. -/
theorem c2_sleep_iff (env : FetchEnv) (url : String) :
    (fetchXml env url).slept = true ↔
      ∃ resp, env.httpGet url = some resp ∧ httpErrorStatus resp.status = false := by
  cases henv : env.httpGet url with
  | none => simp [fetchXml, henv]
  | some resp =>
    by_cases hs : httpErrorStatus resp.status = true
    · simp [fetchXml, henv, hs]
    · have hs2 : httpErrorStatus resp.status = false := by simpa using hs
      simp [fetchXml, henv, hs2]

/-- Claim C6: when the fetch of the (absolutized) root index URL fails,
`crawl_sitemap_index` returns the empty record list and its fetch log holds
exactly that one URL, so no further fetch is attempted. -/
theorem c6_root_failure (cfg : CrawlerCfg) (env : FetchEnv) (url : String)
    (h : (fetchXml env (makeAbsoluteUrl cfg url)).doc = none) :
    crawlSitemapIndex cfg env url = ([], [makeAbsoluteUrl cfg url]) := by
  simp only [crawlSitemapIndex]
  rw [h]

/-- Claim C6 witness: with every request failing, the crawl of the default
index URL returns no records and fetches only the index URL. -/
theorem c6_root_failure_witness :
    (fetchXml envDown (makeAbsoluteUrl cfgId "http://e.com/sitemap_index.xml")).doc = none ∧
    crawlSitemapIndex cfgId envDown "http://e.com/sitemap_index.xml" =
      ([], [makeAbsoluteUrl cfgId "http://e.com/sitemap_index.xml"]) :=
  ⟨rfl, c6_root_failure cfgId envDown "http://e.com/sitemap_index.xml" rfl⟩

/-- Claim C3 counterexample: in a document mixing the two namespace
conventions there are two url entries with a non-empty loc, yet extraction
produces only the single record of the namespaced pass — the bare entry
with its non-empty loc yields no record, so not every such entry produces
exactly one record. -/
theorem c3_mixed_counterexample :
    ((urlEntries mixedDocC3).filter goodUrlEntry).length = 2 ∧
    extractUrlData mixedDocC3 "s" =
      [{ url := "https://a.com/1", last_modified := "", source_sitemap := "s" }] := by
  decide

/-- Claim C3 (amended): in a document following a single namespace
convention (all tags bare, or the same document with every tag namespaced),
extraction is the per-entry filterMap over the url entries: an entry whose
(first) loc child is missing or has empty or whitespace-only text produces
no record, and every other entry produces exactly one record; the last
conjunct states that the per-entry step rejects exactly the entries with
missing or empty extracted loc text. -/
theorem c3_single_convention (d : XmlTree) (s : String) (hd : bareDoc d = true) :
    extractUrlData d s = (findallDesc "url" d).filterMap (recordOf false s) ∧
    extractUrlData (nsify d) s = (findallDesc "url" d).filterMap (recordOf false s) ∧
    (∀ e : XmlTree, recordOf false s e = none ↔ extractText (findChild e "loc") = "") := by
  refine ⟨?_, ?_, ?_⟩
  · simp only [extractUrlData]
    rw [urlPass_true_of_bareDoc hd]
    simp [urlPass]
  · simp only [extractUrlData]
    rw [urlPass_true_nsify, urlPass_false_nsify]
    show (if (urlPass false d s).isEmpty = true then ([] : List URLRecord)
        else urlPass false d s) = urlPass false d s
    cases hE : (urlPass false d s).isEmpty with
    | true => simp [List.isEmpty_iff.mp hE]
    | false => simp [hE]
  · intro e
    simp only [recordOf, recordOfTags]
    by_cases hloc : extractText (findChild e "loc") = ""
    · simp [hloc]
    · simp [hloc]

/-- Claim C3 witness: on a bare document with one entry lacking loc, one
with whitespace-only loc and one good entry, extraction equals the
per-entry filterMap (for the document and its namespaced counterpart) and
yields exactly the good entry's record. -/
theorem c3_single_convention_witness :
    bareDoc docC3 = true ∧
    extractUrlData docC3 "s" = (findallDesc "url" docC3).filterMap (recordOf false "s") ∧
    extractUrlData (nsify docC3) "s" =
      (findallDesc "url" docC3).filterMap (recordOf false "s") ∧
    extractUrlData docC3 "s" =
      [{ url := "https://a.com/1", last_modified := "", source_sitemap := "s" }] :=
  ⟨by decide, (c3_single_convention docC3 "s" (by decide)).1,
   (c3_single_convention docC3 "s" (by decide)).2.1, by decide⟩

/-- Claim C4: for a document without namespaced tags, the namespaced
rendition of the same document (every tag carrying the sitemap namespace
expansion, as parsing with the xmlns declaration produces) yields exactly
the same child-sitemap URL list and the same URL records as the bare
document. -/
theorem c4_namespace_insensitive (d : XmlTree) (s : String) (hd : bareDoc d = true) :
    extractSitemapUrls (nsify d) = extractSitemapUrls d ∧
    extractUrlData (nsify d) s = extractUrlData d s := by
  constructor
  · simp only [extractSitemapUrls]
    rw [sitemapLocElems_true_nsify, sitemapLocElems_false_nsify,
      sitemapLocElems_true_of_bareDoc hd, List.map_map]
    have hmap : ((fun e => extractText (some e)) ∘ nsify) = fun e => extractText (some e) := by
      funext e
      show extractText (some (nsify e)) = extractText (some e)
      simpa using extractText_nsify (some e)
    rw [hmap]
    cases hE : ((sitemapLocElems false d).map fun e => extractText (some e)).isEmpty with
    | true => rw [List.isEmpty_iff.mp hE]; simp
    | false => simp [hE]
  · simp only [extractUrlData]
    rw [urlPass_true_nsify, urlPass_false_nsify, urlPass_true_of_bareDoc hd]
    cases hE : (urlPass false d s).isEmpty with
    | true => rw [List.isEmpty_iff.mp hE]; simp
    | false => simp [hE]

/-- Claim C4 witness: the bare flat sitemap and its namespaced rendition
extract identically. -/
theorem c4_namespace_insensitive_witness :
    bareDoc docC4 = true ∧
    (extractSitemapUrls (nsify docC4) = extractSitemapUrls docC4 ∧
     extractUrlData (nsify docC4) "s1.xml" = extractUrlData docC4 "s1.xml") :=
  ⟨by decide, c4_namespace_insensitive docC4 "s1.xml" (by decide)⟩

/-- Claim C5: each extraction operation uses the namespaced query's results
when that attempt yields any (elements for the child-sitemap query, records
for the url query), tries the bare query only when the namespaced attempt
yields none, and never merges the two attempts: the output is always
exactly one attempt's result. -/
theorem c5_fallback_exclusive (root : XmlTree) (s : String) :
    ((sitemapLocElems true root ≠ [] →
        extractSitemapUrls root =
          ((sitemapLocElems true root).map (fun e => extractText (some e))).filter
            (fun u => !(u == ""))) ∧
     (sitemapLocElems true root = [] →
        extractSitemapUrls root =
          ((sitemapLocElems false root).map (fun e => extractText (some e))).filter
            (fun u => !(u == "")))) ∧
    ((urlPass true root s ≠ [] → extractUrlData root s = urlPass true root s) ∧
     (urlPass true root s = [] → extractUrlData root s = urlPass false root s)) := by
  refine ⟨⟨?_, ?_⟩, ⟨?_, ?_⟩⟩
  · intro h
    have hE : ((sitemapLocElems true root).map fun e => extractText (some e)).isEmpty = false := by
      rw [List.isEmpty_eq_false]
      simpa using h
    simp [extractSitemapUrls, hE]
  · intro h
    simp [extractSitemapUrls, h]
  · intro h
    simp [extractUrlData, List.isEmpty_eq_false.mpr h]
  · intro h
    simp [extractUrlData, h]

/-- Claim C5 witness: on a namespaced index the namespaced attempt's
results are used; on a bare index the bare attempt's; on a namespaced flat
sitemap the namespaced record pass is the output; on a bare flat sitemap
the bare record pass is. -/
theorem c5_fallback_exclusive_witness :
    (extractSitemapUrls nsIndexDocC5 =
      ((sitemapLocElems true nsIndexDocC5).map (fun e => extractText (some e))).filter
        (fun u => !(u == ""))) ∧
    (extractSitemapUrls (mkIndexDoc ["https://e.com/s1.xml"]) =
      ((sitemapLocElems false (mkIndexDoc ["https://e.com/s1.xml"])).map
        (fun e => extractText (some e))).filter (fun u => !(u == ""))) ∧
    (extractUrlData nsFlatDocC5 "s1.xml" = urlPass true nsFlatDocC5 "s1.xml") ∧
    (extractUrlData bareFlatDocC5 "s1.xml" = urlPass false bareFlatDocC5 "s1.xml") :=
  ⟨(c5_fallback_exclusive nsIndexDocC5 "s1.xml").1.1 (by decide),
   (c5_fallback_exclusive (mkIndexDoc ["https://e.com/s1.xml"]) "s1.xml").1.2 (by decide),
   (c5_fallback_exclusive nsFlatDocC5 "s1.xml").2.1 (by decide),
   (c5_fallback_exclusive bareFlatDocC5 "s1.xml").2.2 (by decide)⟩

/-- Claim C10: the two fallbacks trigger on different conditions.  When the
namespaced child-sitemap query matches at least one loc element but every
matched element's text extracts to the empty string, `_extract_sitemap_urls`
returns the empty list — whatever the bare query would have matched, so the
bare attempt is never consulted.  `_extract_url_data`, by contrast, falls
back to the bare pass exactly when the namespaced pass produced zero
records. -/
theorem c10_fallback_asymmetry :
    (∀ root : XmlTree, sitemapLocElems true root ≠ [] →
        (∀ e ∈ sitemapLocElems true root, extractText (some e) = "") →
        extractSitemapUrls root = []) ∧
    (∀ (root : XmlTree) (s : String), urlPass true root s = [] →
        extractUrlData root s = urlPass false root s) := by
  constructor
  · intro root hne hall
    have hE : ((sitemapLocElems true root).map fun e => extractText (some e)).isEmpty = false := by
      rw [List.isEmpty_eq_false]
      simpa using hne
    simp only [extractSitemapUrls, hE, Bool.false_eq_true, if_false]
    apply List.filter_eq_nil_iff.mpr
    intro u hu
    obtain ⟨e, he, rfl⟩ := List.mem_map.mp hu
    simp [hall e he]
  · intro root s h
    simp [extractUrlData, h]

/-- Claim C10 witness: on the mixed index whose namespaced loc is
whitespace-only the result is empty although the bare query holds a real
URL; on the flat document whose namespaced pass yields zero records the
output is the bare pass, which is non-empty. -/
theorem c10_fallback_asymmetry_witness :
    extractSitemapUrls mixedIndexDocC10 = [] ∧
    extractUrlData nsEmptyFlatDocC10 "s" = urlPass false nsEmptyFlatDocC10 "s" ∧
    sitemapLocElems false mixedIndexDocC10 ≠ [] ∧
    urlPass false nsEmptyFlatDocC10 "s" ≠ [] :=
  ⟨c10_fallback_asymmetry.1 mixedIndexDocC10 (by decide) (by decide),
   c10_fallback_asymmetry.2 nsEmptyFlatDocC10 "s" (by decide),
   by decide, by decide⟩

/-- Claim C7: on a non-empty record list `save_to_csv` writes the header
and then one row per record with the records sorted by the url field in
ascending code-point (case-sensitive lexical) order: the written body is
the stable sort of the input, a permutation of it, pairwise ordered by
`urlLe`. -/
theorem c7_save_sorted (url_data : List URLRecord) (h : url_data ≠ []) :
    saveToCsv url_data =
      some (csvHeader :: (List.insertionSort urlLe url_data).map rowOf) ∧
    (List.insertionSort urlLe url_data).Perm url_data ∧
    List.Sorted urlLe (List.insertionSort urlLe url_data) := by
  haveI : IsTrans URLRecord urlLe := ⟨urlLe_trans⟩
  haveI : IsTotal URLRecord urlLe := ⟨urlLe_total⟩
  refine ⟨?_, List.perm_insertionSort urlLe url_data,
    List.sorted_insertionSort urlLe url_data⟩
  simp [saveToCsv, h]

/-- Claim C7 witness: on the records with urls "https://b.com/x" and
"https://a.com/y" (in that input order) the saved body is sorted, and the
a.com/y row precedes the b.com/x row. -/
theorem c7_save_sorted_witness :
    ([recB, recA] ≠ []) ∧
    (saveToCsv [recB, recA] =
       some (csvHeader :: (List.insertionSort urlLe [recB, recA]).map rowOf) ∧
     (List.insertionSort urlLe [recB, recA]).Perm [recB, recA] ∧
     List.Sorted urlLe (List.insertionSort urlLe [recB, recA])) ∧
    List.insertionSort urlLe [recB, recA] = [recA, recB] :=
  ⟨by decide, c7_save_sorted [recB, recA] (by decide), by decide⟩

/-- Claim C8: when the root fetch parses to a document, every emitted
record's source_sitemap is the fixed literal "sitemap_index.xml" when the
document is processed as a flat sitemap (no child sitemap URLs extracted),
and otherwise the final path segment of the absolutized child sitemap URL
that produced the record. -/
theorem c8_source_labels (cfg : CrawlerCfg) (env : FetchEnv) (url : String) (root : XmlTree)
    (hroot : (fetchXml env (makeAbsoluteUrl cfg url)).doc = some root) :
    ∀ r ∈ (crawlSitemapIndex cfg env url).1,
      (extractSitemapUrls root = [] ∧ r.source_sitemap = "sitemap_index.xml") ∨
      (∃ su ∈ extractSitemapUrls root,
        r.source_sitemap = sourceNameOf (makeAbsoluteUrl cfg su)) := by
  intro r hr
  obtain ⟨root2, hroot2, h⟩ := mem_crawl hr
  rw [hroot] at hroot2
  obtain rfl := Option.some.inj hroot2
  rcases h with ⟨hnil, hmem⟩ | ⟨su, hsu, hmem⟩
  · exact Or.inl ⟨hnil, (mem_extractUrlData hmem).2⟩
  · exact Or.inr ⟨su, hsu, (mem_childFetch hmem).2⟩

/-- Claim C8 witness: in the index run the emitted record is labelled
"s1.xml", the final path segment of the child URL, and the disjunction of
the claim holds for it; the flat case label is exercised by the record of
the C1 fixture, whose source_sitemap is "sitemap_index.xml". -/
theorem c8_source_labels_witness :
    (fetchXml envIdxC8 (makeAbsoluteUrl cfgId "http://e.com/sitemap_index.xml")).doc =
      some (mkIndexDoc ["https://e.com/s1.xml"]) ∧
    (crawlSitemapIndex cfgId envIdxC8 "http://e.com/sitemap_index.xml").1 =
      [{ url := "https://e.com/a", last_modified := "2024-01-01",
         source_sitemap := "s1.xml" }] ∧
    ((extractSitemapUrls (mkIndexDoc ["https://e.com/s1.xml"]) = [] ∧
        ({ url := "https://e.com/a", last_modified := "2024-01-01",
           source_sitemap := "s1.xml" } : URLRecord).source_sitemap = "sitemap_index.xml") ∨
     (∃ su ∈ extractSitemapUrls (mkIndexDoc ["https://e.com/s1.xml"]),
        ({ url := "https://e.com/a", last_modified := "2024-01-01",
           source_sitemap := "s1.xml" } : URLRecord).source_sitemap =
          sourceNameOf (makeAbsoluteUrl cfgId su))) :=
  ⟨by decide, by decide,
   c8_source_labels cfgId envIdxC8 "http://e.com/sitemap_index.xml"
     (mkIndexDoc ["https://e.com/s1.xml"]) (by decide) _ (by decide)⟩

/-- Claim C9: when the root fetch parses to a well-formed index document of
N sitemap entries whose loc texts are non-empty after trimming (N at least
1), the crawl issues exactly N+1 fetch calls — the index plus one per child
— its record list is the concatenation of the per-child contributions, and
a child whose fetch fails contributes the empty record list without
aborting the run. -/
theorem c9_fetch_count (cfg : CrawlerCfg) (env : FetchEnv) (url : String)
    (locs : List String)
    (hroot : (fetchXml env (makeAbsoluteUrl cfg url)).doc = some (mkIndexDoc locs))
    (hlocs : ∀ l ∈ locs, pyStrip l ≠ "") (hne : locs ≠ []) :
    (crawlSitemapIndex cfg env url).2.length = locs.length + 1 ∧
    (crawlSitemapIndex cfg env url).1 =
      (locs.map (fun l => (childFetch cfg env (pyStrip l)).1)).flatten ∧
    (∀ su, (fetchXml env (makeAbsoluteUrl cfg su)).doc = none →
      (childFetch cfg env su).1 = []) := by
  have hurls := extractSitemapUrls_mkIndexDoc locs hlocs
  have hE : (locs.map pyStrip).isEmpty = false := by
    rw [List.isEmpty_eq_false]
    simp [hne]
  simp only [crawlSitemapIndex]
  rw [hroot]
  dsimp only
  rw [hurls, hE]
  simp only [Bool.false_eq_true, if_false]
  refine ⟨?_, ?_, ?_⟩
  · have h2 : ((locs.map pyStrip).map (childFetch cfg env)).map Prod.snd =
        (locs.map pyStrip).map (fun su => [makeAbsoluteUrl cfg su]) := by
      rw [List.map_map]
      apply List.map_congr_left
      intro su _
      exact childFetch_snd cfg env su
    rw [h2, flatten_singleton_map (makeAbsoluteUrl cfg) (locs.map pyStrip)]
    simp
  · simp [List.map_map, Function.comp_def]
  · intro su hsu
    exact childFetch_fst_of_failure hsu

/-- Claim C9 witness: the index with two children (the second failing to
fetch) produces exactly three fetch calls, and the record list holds only
the successful child's record. -/
theorem c9_fetch_count_witness :
    (fetchXml envIdxC9 (makeAbsoluteUrl cfgId "http://e.com/sitemap_index.xml")).doc =
      some (mkIndexDoc ["https://e.com/s1.xml", "https://e.com/s2.xml"]) ∧
    (crawlSitemapIndex cfgId envIdxC9 "http://e.com/sitemap_index.xml").2.length = 2 + 1 ∧
    (crawlSitemapIndex cfgId envIdxC9 "http://e.com/sitemap_index.xml").1 =
      [{ url := "https://e.com/a", last_modified := "2024-01-01",
         source_sitemap := "s1.xml" }] :=
  ⟨by decide,
   (c9_fetch_count cfgId envIdxC9 "http://e.com/sitemap_index.xml"
     ["https://e.com/s1.xml", "https://e.com/s2.xml"] (by decide) (by decide) (by decide)).1,
   by decide⟩
